import Mathlib

/-!
# Verification of the AppsFlyer fetch–retry–persist pipeline

A shallow embedding of `src/core/utils/appsflyer_reports_process.py` together
with theorems about the behaviour of its components:

* `AppsFlyerReference` / `_create_reference_info` — request-URL construction
  (`createReferenceInfo`, `createReferencesForApplication`,
  `getAllReferencesForAllApplications`);
* `ProcessAppsflyerReport._save_report` / `process_reports` — streaming
  persistence keyed by the `Content-Disposition` header
  (`saveReport`, `processReports`);
* `PullAppsFlyerReport._retry_pending_reports` / `pull_reports` — the bounded
  retry loop (`retryLoopAux`, `retryPendingReports`, `pullReports`).

Completion of the in-flight HTTP requests is network-dependent, so every round
is parameterised by an environment `Env` that partitions the dispatched tasks
of the round into a done part (each with an outcome) and a still-pending part,
mirroring what `asyncio.wait` returns.  `EnvValid` states the partition
property such an environment is guaranteed by `asyncio.wait`.

The `PState` record models the observable effects of a run: the files written
under the unprocessed-reports directory, the log entries emitted, the handles
cancelled, and — as pure observational instrumentation — the handles whose
response bodies were persisted.  A `List Ev` trace records the order of the
suspension points of each round.
-/

/-- A reference: the request URL, identity of a request across retry rounds. -/
abbrev Reference := String

/-- A request handle: one in-flight `session.get` task.  The task is named by
its reference (`asyncio.create_task(..., name=reference)`); the second
component records which round created it (`0` = initial dispatch, `r ≥ 1` =
retry round `r`), so that the handles a reference spawns in different rounds
are distinguished. -/
abbrev Handle := Reference × Nat

/-- One log entry emitted through `core.logger`. -/
inductive LogEntry where
  | info (msg : String)
  | error (msg : String)
  deriving DecidableEq

/-- The observable part of a resolved successful response: the
`Content-Disposition` header (absent or its string value) and the body as the
successive non-empty chunks that `content.read(1024)` yields. -/
structure ReportResult where
  contentDisposition : Option String
  chunks : List (List Nat)
  deriving DecidableEq

/-- Outcome of a done task: `report.exception() is None` yields the response
(`success`), otherwise the task resolved with an error (`failure`). -/
inductive TaskOutcome where
  | success (reportResult : ReportResult)
  | failure
  deriving DecidableEq

/-- Observable state of a run: files on disk (path ↦ bytes), the log trail,
the handles that were cancelled, and the handles whose response body was
streamed to disk (instrumentation recording which save calls wrote a file). -/
structure PState where
  files : String → Option (List Nat)
  logs : List LogEntry
  cancelled : List Handle
  persisted : List Handle

/-- The state at process start: empty directory, no logs, nothing cancelled. -/
def emptyState : PState :=
  { files := fun _ => none, logs := [], cancelled := [], persisted := [] }

/-- `aiohttp.ClientTimeout(total=10.0, connect=6.0)` on the shared session. -/
def sessionTimeoutTotal : ℚ := 10.0

/-- The `connect` component of the shared session timeout. -/
def sessionTimeoutConnect : ℚ := 6.0

/-- Wait budget of the initial round's partition:
`asyncio.wait(tasks, timeout=0.1)` in `pull_reports`. -/
def initialWaitTimeout : ℚ := 0.1

/-- Wait budget of every retry round's partition:
`asyncio.wait(retry_tasks, timeout=5.0)` in `_retry_pending_reports`. -/
def retryWaitTimeout : ℚ := 5.0

/-- The fixed inter-round sleep: `retry_interval: float = 3.0`. -/
def retryInterval : ℚ := 3.0

/-! ## Python string primitives used by `_save_report`

`filename = content_disposition.split("filename=")[-1].strip('"')` and
`os.path.join` are modelled character-exactly on `List Char`. -/

/-- `listIsInit pat l` is true when `pat` is an initial segment of `l`
(Python's startswith on character lists). -/
def listIsInit : List Char → List Char → Bool
  | [], _ => true
  | _ :: _, [] => false
  | a :: as, b :: bs => a == b && listIsInit as bs

/-- Index of the leftmost occurrence of the (non-empty) separator `sep`
inside `s`, if any. -/
def findSub (sep : List Char) : List Char → Option Nat
  | [] => none
  | c :: rest =>
    if listIsInit sep (c :: rest) then some 0
    else (findSub sep rest).map (· + 1)

/-- Python `str.split(sep)` for a non-empty separator: split at each leftmost
non-overlapping occurrence.  Fuel-driven so that it is structural; the fuel
`s.length + 1` supplied by `pySplit` always suffices. -/
def pySplitAux (sep : List Char) : Nat → List Char → List (List Char)
  | 0, s => [s]
  | fuel + 1, s =>
    match findSub sep s with
    | none => [s]
    | some i => s.take i :: pySplitAux sep fuel (s.drop (i + sep.length))

/-- Python `str.split(sep)` (non-empty `sep`). -/
def pySplit (sep : List Char) (s : List Char) : List (List Char) :=
  pySplitAux sep (s.length + 1) s

/-- Python `str.strip(c)`: remove every leading and trailing occurrence of the
character `c`. -/
def pyStrip (c : Char) (l : List Char) : List Char :=
  ((l.dropWhile (· == c)).reverse.dropWhile (· == c)).reverse

/-- The separator `"filename="` used by `_save_report`. -/
def filenameSep : List Char := "filename=".data

/-- `content_disposition.split("filename=")[-1].strip('"')`. -/
def extractFilename (contentDisposition : String) : String :=
  String.mk (pyStrip '"' ((pySplit filenameSep contentDisposition.data).getLastD []))

/-- `os.path.join a b` for two components: `b` wins when absolute, otherwise
a `/` separator is inserted unless `a` already ends in one. -/
def osPathJoin (a b : String) : String :=
  if listIsInit ['/'] b.data then b
  else if a = "" then b
  else if listIsInit ['/'] a.data.reverse then a ++ b
  else a ++ "/" ++ b

/-- The destination path `os.path.join("./reports", "unprocessed", filename)`. -/
def reportFilepath (filename : String) : String :=
  osPathJoin (osPathJoin "./reports" "unprocessed") filename

/-- The body bytes written by
`while chunk := await report_result.content.read(1024): await f.write(chunk)`:
chunks are appended until the first empty read. -/
def writeChunks : List (List Nat) → List Nat
  | [] => []
  | c :: cs => if c.isEmpty then [] else c ++ writeChunks cs

/-- `ProcessAppsflyerReport._save_report`.  The walrus test
`if content_disposition := report_result.headers.get("Content-Disposition"):`
succeeds exactly when the header is present with a non-empty value; the body
is then streamed in append mode to the header-named file, otherwise one error
is logged and nothing else happens.  `h` is the handle whose result is being
saved; it is recorded in `persisted` when a file is written. -/
def saveReport (h : Handle) (reportResult : ReportResult) (st : PState) : PState :=
  match reportResult.contentDisposition with
  | some contentDisposition =>
    if contentDisposition = "" then
      { st with logs := st.logs ++
          [LogEntry.error "Content-Disposition header not found, cannot save CSV report"] }
    else
      let filename := extractFilename contentDisposition
      let filepath := reportFilepath filename
      let data := writeChunks reportResult.chunks
      { st with
          files := fun p =>
            if p = filepath then some (((st.files filepath).getD []) ++ data) else st.files p,
          logs := st.logs ++
            [LogEntry.info ("CSV report saved: " ++ filename ++ " at " ++ filepath)],
          persisted := st.persisted ++ [h] }
  | none =>
    { st with logs := st.logs ++
        [LogEntry.error "Content-Disposition header not found, cannot save CSV report"] }

/-- `ProcessAppsflyerReport.process_reports`: saves each done task whose
exception is `None`, cancels every other done task. -/
def processReports (reports : List (Handle × TaskOutcome)) (st : PState) : PState :=
  reports.foldl
    (fun st report =>
      match report.2 with
      | TaskOutcome.success reportResult => saveReport report.1 reportResult st
      | TaskOutcome.failure => { st with cancelled := st.cancelled ++ [report.1] })
    st

/-! ## The dispatch / partition / retry loop -/

/-- Trace events marking the steps of each round, in the order the code
reaches them. -/
inductive Ev where
  | dispatch (references : List Reference)
  | partition
  | sleep
  | persist
  | recheck
  | cancelPending
  deriving DecidableEq

/-- A completion environment: given the round number and the tasks dispatched
in that round, how `asyncio.wait` partitions them into done tasks (each
carrying its outcome) and still-pending tasks.  Round `0` is the initial
dispatch of `pull_reports`; round `r ≥ 1` is the `r`-th retry round. -/
def Env := Nat → List Handle → List (Handle × TaskOutcome) × List Handle

/-- The partition guarantee of `asyncio.wait`: the done tasks and the pending
tasks together are exactly the dispatched tasks. -/
def EnvValid (env : Env) : Prop :=
  ∀ round tasks, (((env round tasks).1.map Prod.fst) ++ (env round tasks).2).Perm tasks

/-- `PullAppsFlyerReport._create_tasks_for_retry_request`: one fresh task per
pending task, named by the same reference (same identity, new handle owned by
round `round`). -/
def createTasksForRetryRequest (tasks : List Handle) (round : Nat) : List Handle :=
  tasks.map (fun task => (task.1, round))

/-- The error message logged on retry exhaustion. -/
def tooManyRetriesMsg : String :=
  "Failed to retrieve reports after multiple retry attempts. Raise TooManyRetries exception"

/-- How a run of the coordinator terminates: the loop exits normally
(`success`) or the `TooManyRetries` exception propagates to the top level
(`tooManyRetries`). -/
inductive RunResult where
  | success
  | tooManyRetries
  deriving DecidableEq

/-- The body of `_retry_pending_reports`, one constructor case per state of
the `for attempt in range(retry_attempts): ... else:` idiom.  `round` is the
current retry round (`attempt + 1`), `remaining` the number of attempts left.
When `remaining = 0` the `for` loop has completed without `break`: the `else`
clause cancels every still-pending task and raises `TooManyRetries`.
Otherwise one round runs: re-dispatch the pending references, partition with
the fixed retry wait budget, sleep `retry_interval`, persist the done
outcomes, then exit normally if nothing is pending, else recurse. -/
def retryLoopAux (env : Env) : Nat → Nat → List Handle → PState →
    PState × RunResult × List Ev
  | _, 0, pendingReports, st =>
    ({ st with
        cancelled := st.cancelled ++ pendingReports,
        logs := st.logs ++ [LogEntry.error tooManyRetriesMsg] },
     RunResult.tooManyRetries, [Ev.cancelPending])
  | round, remaining + 1, pendingReports, st =>
    let retryTasks := createTasksForRetryRequest pendingReports round
    let dn := env round retryTasks
    let st1 := processReports dn.1
      { st with logs := st.logs ++
          [LogEntry.info ("Retrying pending reports, attempt " ++ toString round),
           LogEntry.info ("Number of done reports: " ++ toString dn.1.length),
           LogEntry.info ("Number of pending reports: " ++ toString dn.2.length)] }
    let block := [Ev.dispatch (retryTasks.map Prod.fst), Ev.partition, Ev.sleep,
                  Ev.persist, Ev.recheck]
    if dn.2.isEmpty then
      ({ st1 with logs := st1.logs ++
          [LogEntry.info "All reports have been retrieved successfully"] },
       RunResult.success, block)
    else
      let rest := retryLoopAux env (round + 1) remaining dn.2 st1
      (rest.1, rest.2.1, block ++ rest.2.2)

/-- `PullAppsFlyerReport._retry_pending_reports` with its default
`retry_attempts: int = 3` (the argument order puts the defaulted retry
ceiling last). -/
def retryPendingReports (env : Env) (pendingReports : List Handle) (st : PState)
    (retryAttempts : Nat := 3) : PState × RunResult × List Ev :=
  retryLoopAux env 1 retryAttempts pendingReports st

/-- `PullAppsFlyerReport.pull_reports`: dispatch one task per reference,
partition with the initial wait budget, persist the done outcomes, and when
anything is still pending enter the retry loop. -/
def pullReports (env : Env) (references : List Reference) : PState × RunResult × List Ev :=
  let tasks := references.map (fun reference => (reference, 0))
  let dn := env 0 tasks
  let st1 := processReports dn.1 emptyState
  let block := [Ev.dispatch references, Ev.partition, Ev.persist, Ev.recheck]
  if dn.2.isEmpty then
    (st1, RunResult.success, block)
  else
    let rest := retryPendingReports env dn.2 st1
    (rest.1, rest.2.1, block ++ rest.2.2)

/-- The pending set after `n` further rounds when round `round` starts from
pending tasks `p` (so `pendAfter env 1 p n` is the pending set after the
`n`-th retry round of a run). -/
def pendAfter (env : Env) : Nat → List Handle → Nat → List Handle
  | _, p, 0 => p
  | round, p, n + 1 =>
    pendAfter env (round + 1) ((env round (createTasksForRetryRequest p round)).2) n

/-- The reference lists dispatched along a trace, in round order. -/
def dispatchLists (tr : List Ev) : List (List Reference) :=
  tr.filterMap (fun e => match e with | Ev.dispatch rs => some rs | _ => none)

/-- Number of (re-)dispatch rounds recorded in a trace. -/
def countDispatch (tr : List Ev) : Nat := (dispatchLists tr).length

/-- The step order of one retry round as it appears in the trace. -/
def roundBlock (references : List Reference) : List Ev :=
  [Ev.dispatch references, Ev.partition, Ev.sleep, Ev.persist, Ev.recheck]

/-! ## Reference construction (`AppsFlyerReference`)

Configuration values are the defaults of `core/settings.py`; `now` is modelled
as the day index (days since 1970-01-01) of `datetime.now()` — only whole-day
arithmetic and `%Y-%m-%d` formatting reach the constructed URL. -/

/-- `AppsflyerReportsAPIEnum.values()` in declaration order. -/
def appsflyerReportsApi : List String :=
  ["installs_report", "in_app_events_report",
   "organic_installs_report", "organic_in_app_events_report"]

/-- `AdditionalFieldsEnum.MATCH_TYPE`. -/
def additionalFields : String := "match_type"

/-- `settings.APPSFLYER_API_URL` default. -/
def appsflyerApiUrl : String := "https://hq1.appsflyer.com/api"

/-- `settings.APPLICATION_ID_IOS` default. -/
def applicationIdIos : String := "application_id_ios"

/-- `settings.APPLICATION_ID_ANDROID` default. -/
def applicationIdAndroid : String := "application_id_android"

/-- `date_start = datetime.now() - timedelta(days=1)` as a day index. -/
def dateStart (now : Nat) : Nat := now - 1

/-- `date_stop = date_start - timedelta(days=1)` as a day index. -/
def dateStop (now : Nat) : Nat := dateStart now - 1

/-- Zero-padded two-digit decimal (`%m`, `%d`). -/
def pad2 (n : Nat) : String := if n < 10 then "0" ++ toString n else toString n

/-- Zero-padded four-digit decimal (`%Y` for the years in range). -/
def pad4 (n : Nat) : String :=
  if n < 10 then "000" ++ toString n
  else if n < 100 then "00" ++ toString n
  else if n < 1000 then "0" ++ toString n
  else toString n

/-- Proleptic-Gregorian civil date (year, month, day) of a day index counted
from 1970-01-01. -/
def civilFromDays (z : Nat) : Nat × Nat × Nat :=
  let zz := z + 719468
  let era := zz / 146097
  let doe := zz % 146097
  let yoe := (doe - doe / 1460 + doe / 36524 - doe / 146096) / 365
  let y := yoe + era * 400
  let doy := doe - (365 * yoe + yoe / 4 - yoe / 100)
  let mp := (5 * doy + 2) / 153
  let d := doy - (153 * mp + 2) / 5 + 1
  let m := if mp < 10 then mp + 3 else mp - 9
  if m ≤ 2 then (y + 1, m, d) else (y, m, d)

/-- `strftime('%Y-%m-%d')` of a day index. -/
def strftimeYMD (day : Nat) : String :=
  let ymd := civilFromDays day
  pad4 ymd.1 ++ "-" ++ pad2 ymd.2.1 ++ "-" ++ pad2 ymd.2.2

/-- The fixed path portion of a reference:
`/raw-data/export/app/{application_id}/{report_api}/v5?from=`. -/
def referencePath (applicationId reportApi : String) : String :=
  "/raw-data/export/app/" ++ applicationId ++ "/" ++ reportApi ++ "/v5?from="

/-- The date-window query portion of a reference:
`{from}&to={to}&additional_fields={additional_fields}`. -/
def referenceDates (ds dstop : Nat) : String :=
  strftimeYMD ds ++ "&to=" ++ strftimeYMD dstop ++ "&additional_fields=" ++ additionalFields

/-- `AppsFlyerReferenceInfo`. -/
structure AppsFlyerReferenceInfo where
  reference : String
  applicationId : String
  reportApi : String
  deriving DecidableEq

/-- `AppsFlyerReference._create_reference_info`: the f-string
`{base}/raw-data/export/app/{app_id}/{report_api}/v5?from={start}&to={stop}&additional_fields={fields}`. -/
def createReferenceInfo (baseUrl : String) (ds dstop : Nat)
    (applicationId reportApi : String) : AppsFlyerReferenceInfo :=
  { reference := baseUrl ++ referencePath applicationId reportApi ++ referenceDates ds dstop,
    applicationId := applicationId,
    reportApi := reportApi }

/-- One `dict` entry of `reference_for_application`:
reference ↦ (application_id, report_api). -/
abbrev RefEntry := String × (String × String)

/-- Python dict assignment `d[k] = v` on an insertion-ordered entry list:
overwrite in place when the key exists, else append. -/
def dictInsert (k : String) (v : String × String) (d : List RefEntry) : List RefEntry :=
  if d.any (fun kv => kv.1 == k) then
    d.map (fun kv => if kv.1 == k then (k, v) else kv)
  else d ++ [(k, v)]

/-- `AppsFlyerReference._create_references_for_application`: one dict entry per
report API. -/
def createReferencesForApplication (baseUrl : String) (ds dstop : Nat)
    (applicationId : String) : List RefEntry :=
  appsflyerReportsApi.foldl
    (fun referenceForApplication reportApi =>
      let info := createReferenceInfo baseUrl ds dstop applicationId reportApi
      dictInsert info.reference (info.applicationId, info.reportApi) referenceForApplication)
    []

/-- `AppsFlyerReference.get_all_references_for_all_applications`:
`{**references_for_ios, **references_for_android}`. -/
def getAllReferencesForAllApplications (baseUrl : String) (now : Nat)
    (idIos idAndroid : String) : List RefEntry :=
  (createReferencesForApplication baseUrl (dateStart now) (dateStop now) idAndroid).foldl
    (fun d kv => dictInsert kv.1 kv.2 d)
    (createReferencesForApplication baseUrl (dateStart now) (dateStop now) idIos)

/-! ## Concrete environments used by the witnesses and counterexamples -/

/-- Environment in which every dispatched task resolves successfully with a
well-formed CSV response. -/
def envAllDone : Env := fun _ tasks =>
  (tasks.map (fun task =>
    (task, TaskOutcome.success ⟨some "attachment; filename=\"x.csv\"", [[104, 105]]⟩)), [])

/-- Environment in which no task ever resolves. -/
def envAllPend : Env := fun _ tasks => ([], tasks)

/-- Environment in which the task for reference `"a"` resolves with an error
in every round while every other task stays pending. -/
def envAFails : Env := fun _ tasks =>
  ((tasks.filter (fun task => task.1 == "a")).map (fun task => (task, TaskOutcome.failure)),
   tasks.filter (fun task => !(task.1 == "a")))

/-- Environment in which the task for reference `"a"` resolves successfully
but without a `Content-Disposition` header, while every other task stays
pending. -/
def envANoHeader : Env := fun _ tasks =>
  ((tasks.filter (fun task => task.1 == "a")).map
      (fun task => (task, TaskOutcome.success ⟨none, []⟩)),
   tasks.filter (fun task => !(task.1 == "a")))

/-- Environment in which the task for `"a"` fails in the first retry round,
the rest stays pending there, and everything resolves in later rounds. -/
def envAFailsRound1 : Env := fun round tasks =>
  if round = 1 then
    ((tasks.filter (fun task => task.1 == "a")).map (fun task => (task, TaskOutcome.failure)),
     tasks.filter (fun task => !(task.1 == "a")))
  else
    (tasks.map (fun task => (task, TaskOutcome.failure)), [])

/-- Whether a done task resolved with an error (`report.exception()` not
`None`). -/
def isFailureOutcome : TaskOutcome → Bool
  | TaskOutcome.success _ => false
  | TaskOutcome.failure => true

/-- Whether `_save_report` takes the write branch for this response. -/
def writesReport (reportResult : ReportResult) : Bool :=
  match reportResult.contentDisposition with
  | some v => !(v == "")
  | none => false

/-- Whether `process_reports` streams this outcome to a file. -/
def writesFile : TaskOutcome → Bool
  | TaskOutcome.success reportResult => writesReport reportResult
  | TaskOutcome.failure => false

/-- The handles `process_reports` cancels among a done set. -/
def cancelledOf (reports : List (Handle × TaskOutcome)) : List Handle :=
  (reports.filter (fun report => isFailureOutcome report.2)).map Prod.fst

/-- The handles `process_reports` persists among a done set. -/
def persistedOf (reports : List (Handle × TaskOutcome)) : List Handle :=
  (reports.filter (fun report => writesFile report.2)).map Prod.fst

/-- How many times a handle occurs in a list (used to state that a handle is
cancelled exactly once). -/
def countHandle (h : Handle) (l : List Handle) : Nat :=
  (l.filter (fun x => x = h)).length

/-! ## Lemmas about the persister -/

theorem writeChunks_eq_join (chunks : List (List Nat)) (hne : ∀ c ∈ chunks, c ≠ []) :
    writeChunks chunks = chunks.flatten := by
  induction chunks with
  | nil => rfl
  | cons c cs ih =>
    have hc : c ≠ [] := hne c (by simp)
    simp only [writeChunks, List.flatten_cons, List.isEmpty_eq_true]
    rw [if_neg hc, ih (fun d hd => hne d (by simp [hd]))]

theorem saveReport_cancelled (h : Handle) (r : ReportResult) (st : PState) :
    (saveReport h r st).cancelled = st.cancelled := by
  unfold saveReport
  cases r.contentDisposition
  · rfl
  · dsimp only
    split <;> rfl

theorem saveReport_persisted (h : Handle) (r : ReportResult) (st : PState) :
    (saveReport h r st).persisted =
      st.persisted ++ (if writesReport r then [h] else []) := by
  unfold saveReport writesReport
  cases r.contentDisposition with
  | none => simp
  | some v =>
    dsimp only
    by_cases hv : v = ""
    · simp [hv]
    · simp [hv]

theorem processReports_cancelled (reports : List (Handle × TaskOutcome)) :
    ∀ st, (processReports reports st).cancelled = st.cancelled ++ cancelledOf reports := by
  induction reports with
  | nil => intro st; simp [processReports, cancelledOf]
  | cons a t ih =>
    intro st
    obtain ⟨h, o⟩ := a
    cases o with
    | success r =>
      have hstep : processReports ((h, TaskOutcome.success r) :: t) st =
          processReports t (saveReport h r st) := rfl
      rw [hstep, ih, saveReport_cancelled]
      simp [cancelledOf, List.filter_cons, isFailureOutcome]
    | failure =>
      have hstep : processReports ((h, TaskOutcome.failure) :: t) st =
          processReports t { st with cancelled := st.cancelled ++ [h] } := rfl
      rw [hstep, ih]
      simp [cancelledOf, List.filter_cons, isFailureOutcome]

theorem processReports_persisted (reports : List (Handle × TaskOutcome)) :
    ∀ st, (processReports reports st).persisted = st.persisted ++ persistedOf reports := by
  induction reports with
  | nil => intro st; simp [processReports, persistedOf]
  | cons a t ih =>
    intro st
    obtain ⟨h, o⟩ := a
    cases o with
    | success r =>
      have hstep : processReports ((h, TaskOutcome.success r) :: t) st =
          processReports t (saveReport h r st) := rfl
      rw [hstep, ih, saveReport_persisted]
      by_cases hw : writesReport r
      · simp [persistedOf, List.filter_cons, writesFile, hw]
      · simp [persistedOf, List.filter_cons, writesFile, hw]
    | failure =>
      have hstep : processReports ((h, TaskOutcome.failure) :: t) st =
          processReports t { st with cancelled := st.cancelled ++ [h] } := rfl
      rw [hstep, ih]
      simp [persistedOf, List.filter_cons, writesFile]

theorem cancelledOf_subset (reports : List (Handle × TaskOutcome)) :
    ∀ x ∈ cancelledOf reports, x ∈ reports.map Prod.fst := by
  intro x hx
  obtain ⟨⟨h, o⟩, hmem, rfl⟩ := List.mem_map.mp hx
  exact List.mem_map.mpr ⟨_, List.mem_of_mem_filter hmem, rfl⟩

theorem persistedOf_subset (reports : List (Handle × TaskOutcome)) :
    ∀ x ∈ persistedOf reports, x ∈ reports.map Prod.fst := by
  intro x hx
  obtain ⟨⟨h, o⟩, hmem, rfl⟩ := List.mem_map.mp hx
  exact List.mem_map.mpr ⟨_, List.mem_of_mem_filter hmem, rfl⟩

theorem cancelledOf_persistedOf_disjoint (reports : List (Handle × TaskOutcome))
    (hnd : (reports.map Prod.fst).Nodup) :
    ∀ x, x ∈ cancelledOf reports → x ∉ persistedOf reports := by
  induction reports with
  | nil => simp [cancelledOf, persistedOf]
  | cons a t ih =>
    obtain ⟨h, o⟩ := a
    simp only [List.map_cons, List.nodup_cons] at hnd
    intro x hx hp
    cases o with
    | success r =>
      have hx' : x ∈ cancelledOf t := by
        simpa [cancelledOf, List.filter_cons, isFailureOutcome] using hx
      have hp' : x ∈ persistedOf t ∨ x = h := by
        by_cases hw : writesReport r
        · rcases (by simpa [persistedOf, List.filter_cons, writesFile, hw] using hp :
            x = h ∨ x ∈ persistedOf t) with h1 | h1
          · exact Or.inr h1
          · exact Or.inl h1
        · exact Or.inl (by simpa [persistedOf, List.filter_cons, writesFile, hw] using hp)
      rcases hp' with h1 | rfl
      · exact ih hnd.2 x hx' h1
      · exact hnd.1 (cancelledOf_subset t x hx')
    | failure =>
      have hp' : x ∈ persistedOf t := by
        simpa [persistedOf, List.filter_cons, writesFile] using hp
      have hx' : x = h ∨ x ∈ cancelledOf t := by
        simpa [cancelledOf, List.filter_cons, isFailureOutcome] using hx
      rcases hx' with rfl | h1
      · exact hnd.1 (persistedOf_subset t x hp')
      · exact ih hnd.2 x h1 hp'

theorem countHandle_append (h : Handle) (l1 l2 : List Handle) :
    countHandle h (l1 ++ l2) = countHandle h l1 + countHandle h l2 := by
  simp [countHandle, List.filter_append]

theorem countHandle_eq_zero {h : Handle} {l : List Handle} (hnm : h ∉ l) :
    countHandle h l = 0 := by
  induction l with
  | nil => rfl
  | cons a t ih =>
    have ha : a ≠ h := fun he => hnm (he ▸ List.mem_cons_self a t)
    have ht : h ∉ t := fun he => hnm (List.mem_cons_of_mem a he)
    simp [countHandle, List.filter_cons, ha] at ih ⊢
    exact ih ht

theorem countHandle_eq_one {h : Handle} {l : List Handle} (hnd : l.Nodup) (hm : h ∈ l) :
    countHandle h l = 1 := by
  induction l with
  | nil => cases hm
  | cons a t ih =>
    rw [List.nodup_cons] at hnd
    rcases List.mem_cons.mp hm with rfl | hm'
    · have ht : countHandle h t = 0 := countHandle_eq_zero hnd.1
      simp [countHandle, List.filter_cons] at ht ⊢
      exact ht
    · have ha : a ≠ h := fun he => hnd.1 (he ▸ hm')
      simp only [countHandle, List.filter_cons]
      simp [ha]
      have := ih hnd.2 hm'
      simpa [countHandle] using this

/-! ## Lemmas about dispatch, partitioning and the retry loop -/

theorem createTasks_map_fst (p : List Handle) (round : Nat) :
    (createTasksForRetryRequest p round).map Prod.fst = p.map Prod.fst := by
  simp [createTasksForRetryRequest, List.map_map, Function.comp]

theorem mem_createTasks_snd {p : List Handle} {round : Nat} {h : Handle}
    (hh : h ∈ createTasksForRetryRequest p round) : h.2 = round := by
  obtain ⟨t, _, rfl⟩ := List.mem_map.mp hh
  rfl

theorem pendAfter_succ (env : Env) (round : Nat) (p : List Handle) (n : Nat) :
    pendAfter env round p (n + 1) =
      pendAfter env (round + 1) ((env round (createTasksForRetryRequest p round)).2) n := rfl

theorem env_pend_mem {env : Env} (He : EnvValid env) {round : Nat} {ts : List Handle}
    {h : Handle} (hh : h ∈ (env round ts).2) : h ∈ ts :=
  (He round ts).mem_iff.mp (by simp [hh])

theorem env_done_mem {env : Env} (He : EnvValid env) {round : Nat} {ts : List Handle}
    {x : Handle} (hx : x ∈ (env round ts).1.map Prod.fst) : x ∈ ts :=
  (He round ts).mem_iff.mp (by simp [hx])

theorem env_append_nodup {env : Env} (He : EnvValid env) {round : Nat} {ts : List Handle}
    (hnd : ts.Nodup) :
    ((env round ts).1.map Prod.fst).Nodup ∧ (env round ts).2.Nodup ∧
      ((env round ts).1.map Prod.fst).Disjoint (env round ts).2 := by
  have hnd2 := (He round ts).nodup_iff.mpr hnd
  rwa [List.nodup_append] at hnd2

theorem env_names_perm {env : Env} (He : EnvValid env) (round : Nat) (ts : List Handle) :
    (((env round ts).1.map Prod.fst).map Prod.fst ++ (env round ts).2.map Prod.fst).Perm
      (ts.map Prod.fst) := by
  have := (He round ts).map Prod.fst
  simpa [List.map_append] using this

theorem env_names_nodup {env : Env} (He : EnvValid env) {round : Nat} {ts : List Handle}
    (hnd : (ts.map Prod.fst).Nodup) :
    (((env round ts).1.map Prod.fst).map Prod.fst).Nodup ∧
      ((env round ts).2.map Prod.fst).Nodup ∧
      (((env round ts).1.map Prod.fst).map Prod.fst).Disjoint ((env round ts).2.map Prod.fst) := by
  have hnd2 := (env_names_perm He round ts).nodup_iff.mpr hnd
  rwa [List.nodup_append] at hnd2

theorem done_name_not_in_pend {env : Env} (He : EnvValid env) {round : Nat} {ts : List Handle}
    (hnd : (ts.map Prod.fst).Nodup) {x : Handle}
    (hx : x ∈ (env round ts).1.map Prod.fst) :
    x.1 ∉ (env round ts).2.map Prod.fst :=
  fun hmem => (env_names_nodup He hnd).2.2 (List.mem_map_of_mem Prod.fst hx) hmem

theorem dispatchLists_roundBlock_append (rs : List Reference) (tr : List Ev) :
    dispatchLists (roundBlock rs ++ tr) = rs :: dispatchLists tr := rfl

theorem dispatchLists_roundBlock (rs : List Reference) :
    dispatchLists (roundBlock rs) = [rs] := rfl

theorem dispatchLists_initial_append (rs : List Reference) (tr : List Ev) :
    dispatchLists ([Ev.dispatch rs, Ev.partition, Ev.persist, Ev.recheck] ++ tr) =
      rs :: dispatchLists tr := rfl

theorem retryLoopAux_zero (env : Env) (round : Nat) (p : List Handle) (st : PState) :
    retryLoopAux env round 0 p st =
      ({ st with cancelled := st.cancelled ++ p,
                 logs := st.logs ++ [LogEntry.error tooManyRetriesMsg] },
       RunResult.tooManyRetries, [Ev.cancelPending]) := rfl

theorem retryLoopAux_succ_ne (env : Env) (round rem : Nat) (p : List Handle) (st : PState)
    (hne : (env round (createTasksForRetryRequest p round)).2 ≠ []) :
    ∃ st1 : PState,
      st1.cancelled = st.cancelled ++
        cancelledOf (env round (createTasksForRetryRequest p round)).1 ∧
      st1.persisted = st.persisted ++
        persistedOf (env round (createTasksForRetryRequest p round)).1 ∧
      retryLoopAux env round (rem + 1) p st =
        ((retryLoopAux env (round + 1) rem (env round (createTasksForRetryRequest p round)).2 st1).1,
         (retryLoopAux env (round + 1) rem (env round (createTasksForRetryRequest p round)).2 st1).2.1,
         roundBlock ((createTasksForRetryRequest p round).map Prod.fst) ++
           (retryLoopAux env (round + 1) rem (env round (createTasksForRetryRequest p round)).2 st1).2.2) := by
  refine ⟨processReports (env round (createTasksForRetryRequest p round)).1
    { st with logs := st.logs ++
        [LogEntry.info ("Retrying pending reports, attempt " ++ toString round),
         LogEntry.info ("Number of done reports: " ++
           toString (env round (createTasksForRetryRequest p round)).1.length),
         LogEntry.info ("Number of pending reports: " ++
           toString (env round (createTasksForRetryRequest p round)).2.length)] },
    ?_, ?_, ?_⟩
  · rw [processReports_cancelled]
  · rw [processReports_persisted]
  · simp only [retryLoopAux]
    rw [if_neg (by simpa using hne)]
    rfl

theorem retryLoopAux_succ_nil (env : Env) (round rem : Nat) (p : List Handle) (st : PState)
    (hnil : (env round (createTasksForRetryRequest p round)).2 = []) :
    (retryLoopAux env round (rem + 1) p st).2.1 = RunResult.success ∧
    (retryLoopAux env round (rem + 1) p st).1.cancelled =
      st.cancelled ++ cancelledOf (env round (createTasksForRetryRequest p round)).1 ∧
    (retryLoopAux env round (rem + 1) p st).1.persisted =
      st.persisted ++ persistedOf (env round (createTasksForRetryRequest p round)).1 ∧
    (retryLoopAux env round (rem + 1) p st).2.2 =
      roundBlock ((createTasksForRetryRequest p round).map Prod.fst) := by
  simp only [retryLoopAux]
  rw [if_pos (by simp [hnil])]
  refine ⟨rfl, ?_, ?_, rfl⟩
  · show (processReports (env round (createTasksForRetryRequest p round)).1 _).cancelled = _
    rw [processReports_cancelled]
  · show (processReports (env round (createTasksForRetryRequest p round)).1 _).persisted = _
    rw [processReports_persisted]

theorem countDispatch_le (env : Env) :
    ∀ (rem round : Nat) (p : List Handle) (st : PState),
    countDispatch (retryLoopAux env round rem p st).2.2 ≤ rem := by
  intro rem
  induction rem with
  | zero =>
    intro round p st
    rw [retryLoopAux_zero]
    exact Nat.le_refl 0
  | succ n ih =>
    intro round p st
    by_cases hnil : (env round (createTasksForRetryRequest p round)).2 = []
    · obtain ⟨_, _, _, htr⟩ := retryLoopAux_succ_nil env round n p st hnil
      rw [countDispatch, htr, dispatchLists_roundBlock]
      simp
    · obtain ⟨st1, _, _, heq⟩ := retryLoopAux_succ_ne env round n p st hnil
      rw [countDispatch, heq]
      dsimp only
      rw [dispatchLists_roundBlock_append]
      have := ih (round + 1) (env round (createTasksForRetryRequest p round)).2 st1
      rw [countDispatch] at this
      simp only [List.length_cons]
      omega

theorem retryLoop_success_of_drain (env : Env) :
    ∀ (n round rem : Nat) (p : List Handle) (st : PState),
    n < rem →
    (∀ m, m < n → pendAfter env round p (m + 1) ≠ []) →
    pendAfter env round p (n + 1) = [] →
    (retryLoopAux env round rem p st).2.1 = RunResult.success := by
  intro n
  induction n with
  | zero =>
    intro round rem p st hlt _ hempty
    obtain ⟨r, rfl⟩ : ∃ r, rem = r + 1 := ⟨rem - 1, by omega⟩
    simp only [retryLoopAux]
    have hempty' : (env round (createTasksForRetryRequest p round)).2 = [] := hempty
    rw [if_pos (by simp [hempty'])]
  | succ n ih =>
    intro round rem p st hlt hne hempty
    obtain ⟨r, rfl⟩ : ∃ r, rem = r + 1 := ⟨rem - 1, by omega⟩
    obtain ⟨st1, _, _, heq⟩ := retryLoopAux_succ_ne env round r p st (hne 0 (by omega))
    rw [heq]
    exact ih (round + 1) r _ st1 (by omega) (fun m hm => hne (m + 1) (by omega)) hempty

theorem retry_exhaust_master (env : Env) (He : EnvValid env) :
    ∀ (rem round : Nat) (p : List Handle) (st : PState),
    (p.map Prod.fst).Nodup →
    (∀ h ∈ st.cancelled, h.2 < round) →
    (∀ h ∈ st.persisted, h.2 < round) →
    (∀ h ∈ p, h ∉ st.cancelled) →
    (∀ h ∈ p, h ∉ st.persisted) →
    (∀ h ∈ st.cancelled, h ∉ st.persisted) →
    (∀ m, m < rem → pendAfter env round p (m + 1) ≠ []) →
    (retryLoopAux env round rem p st).2.1 = RunResult.tooManyRetries ∧
    (∀ h ∈ pendAfter env round p rem,
       countHandle h (retryLoopAux env round rem p st).1.cancelled = 1 ∧
       h ∉ (retryLoopAux env round rem p st).1.persisted) ∧
    (∀ h ∈ (retryLoopAux env round rem p st).1.cancelled,
       h ∉ (retryLoopAux env round rem p st).1.persisted) := by
  intro rem
  induction rem with
  | zero =>
    intro round p st hnd hct hpt hdc hdp hcp _
    rw [retryLoopAux_zero]
    refine ⟨rfl, ?_, ?_⟩
    · intro h hh
      refine ⟨?_, hdp h hh⟩
      show countHandle h (st.cancelled ++ p) = 1
      rw [countHandle_append, countHandle_eq_zero (hdc h hh), countHandle_eq_one hnd.of_map hh]
    · intro h hh
      have hh' : h ∈ st.cancelled ++ p := hh
      rcases List.mem_append.mp hh' with h1 | h1
      · exact hcp h h1
      · exact hdp h h1
  | succ n ih =>
    intro round p st hnd hct hpt hdc hdp hcp hpend
    have hne0 : (env round (createTasksForRetryRequest p round)).2 ≠ [] := by
      have := hpend 0 (by omega)
      rwa [pendAfter_succ] at this
    obtain ⟨st1, hc1, hp1, heq⟩ := retryLoopAux_succ_ne env round n p st hne0
    rw [heq]
    dsimp only
    have htsnames := createTasks_map_fst p round
    have htsnd : ((createTasksForRetryRequest p round).map Prod.fst).Nodup := by
      rw [htsnames]; exact hnd
    have htsnodup := htsnd.of_map
    obtain ⟨hdnd, hpnd, hdisj⟩ := env_append_nodup He htsnodup
    have hdtag : ∀ x ∈ (env round (createTasksForRetryRequest p round)).1.map Prod.fst,
        x.2 = round := fun x hx => mem_createTasks_snd (env_done_mem He hx)
    have hptag : ∀ x ∈ (env round (createTasksForRetryRequest p round)).2,
        x.2 = round := fun x hx => mem_createTasks_snd (env_pend_mem He hx)
    have hcsub := cancelledOf_subset (env round (createTasksForRetryRequest p round)).1
    have hpsub := persistedOf_subset (env round (createTasksForRetryRequest p round)).1
    have hnd' : ((env round (createTasksForRetryRequest p round)).2.map Prod.fst).Nodup :=
      (env_names_nodup He htsnd).2.1
    have hct' : ∀ h ∈ st1.cancelled, h.2 < round + 1 := by
      intro h hh
      rw [hc1] at hh
      rcases List.mem_append.mp hh with h1 | h1
      · exact Nat.lt_succ_of_lt (hct h h1)
      · rw [hdtag h (hcsub h h1)]; omega
    have hpt' : ∀ h ∈ st1.persisted, h.2 < round + 1 := by
      intro h hh
      rw [hp1] at hh
      rcases List.mem_append.mp hh with h1 | h1
      · exact Nat.lt_succ_of_lt (hpt h h1)
      · rw [hdtag h (hpsub h h1)]; omega
    have hdc' : ∀ h ∈ (env round (createTasksForRetryRequest p round)).2, h ∉ st1.cancelled := by
      intro h hh hmem
      rw [hc1] at hmem
      rcases List.mem_append.mp hmem with h1 | h1
      · have := hct h h1
        rw [hptag h hh] at this
        omega
      · exact hdisj (hcsub h h1) hh
    have hdp' : ∀ h ∈ (env round (createTasksForRetryRequest p round)).2, h ∉ st1.persisted := by
      intro h hh hmem
      rw [hp1] at hmem
      rcases List.mem_append.mp hmem with h1 | h1
      · have := hpt h h1
        rw [hptag h hh] at this
        omega
      · exact hdisj (hpsub h h1) hh
    have hcp' : ∀ h ∈ st1.cancelled, h ∉ st1.persisted := by
      intro h hh hmem
      rw [hc1] at hh
      rw [hp1] at hmem
      rcases List.mem_append.mp hh with h1 | h1 <;> rcases List.mem_append.mp hmem with h2 | h2
      · exact hcp h h1 h2
      · have := hct h h1
        rw [hdtag h (hpsub h h2)] at this
        omega
      · have := hpt h h2
        rw [hdtag h (hcsub h h1)] at this
        omega
      · exact cancelledOf_persistedOf_disjoint _ hdnd h h1 h2
    have hpend' : ∀ m, m < n →
        pendAfter env (round + 1) (env round (createTasksForRetryRequest p round)).2 (m + 1) ≠ [] := by
      intro m hm
      have := hpend (m + 1) (by omega)
      rwa [pendAfter_succ] at this
    have hmain := ih (round + 1) (env round (createTasksForRetryRequest p round)).2 st1
      hnd' hct' hpt' hdc' hdp' hcp' hpend'
    rw [pendAfter_succ]
    exact hmain

theorem dispatchLists_subset (env : Env) (He : EnvValid env) :
    ∀ (rem round : Nat) (p : List Handle) (st : PState),
    ∀ ds ∈ dispatchLists (retryLoopAux env round rem p st).2.2, ∀ x ∈ ds, x ∈ p.map Prod.fst := by
  intro rem
  induction rem with
  | zero =>
    intro round p st ds hds
    rw [retryLoopAux_zero] at hds
    simp [dispatchLists] at hds
  | succ n ih =>
    intro round p st ds hds x hx
    by_cases hnil : (env round (createTasksForRetryRequest p round)).2 = []
    · obtain ⟨_, _, _, htr⟩ := retryLoopAux_succ_nil env round n p st hnil
      rw [htr, dispatchLists_roundBlock] at hds
      rcases List.mem_singleton.mp hds with rfl
      rwa [createTasks_map_fst] at hx
    · obtain ⟨st1, _, _, heq⟩ := retryLoopAux_succ_ne env round n p st hnil
      rw [heq] at hds
      dsimp only at hds
      rw [dispatchLists_roundBlock_append] at hds
      rcases List.mem_cons.mp hds with rfl | hds'
      · rwa [createTasks_map_fst] at hx
      · have hx' := ih (round + 1) (env round (createTasksForRetryRequest p round)).2 st1 ds hds' x hx
        obtain ⟨h, hh, rfl⟩ := List.mem_map.mp hx'
        have hmem := env_pend_mem He hh
        have : h.1 ∈ (createTasksForRetryRequest p round).map Prod.fst :=
          List.mem_map.mpr ⟨h, hmem, rfl⟩
        rwa [createTasks_map_fst] at this

theorem retryLoopAux_cancelled_mono (env : Env) :
    ∀ (rem round : Nat) (p : List Handle) (st : PState) (h : Handle),
    h ∈ st.cancelled → h ∈ (retryLoopAux env round rem p st).1.cancelled := by
  intro rem
  induction rem with
  | zero =>
    intro round p st h hh
    rw [retryLoopAux_zero]
    exact List.mem_append.mpr (Or.inl hh)
  | succ n ih =>
    intro round p st h hh
    by_cases hnil : (env round (createTasksForRetryRequest p round)).2 = []
    · obtain ⟨_, hc, _, _⟩ := retryLoopAux_succ_nil env round n p st hnil
      rw [hc]
      exact List.mem_append.mpr (Or.inl hh)
    · obtain ⟨st1, hc1, _, heq⟩ := retryLoopAux_succ_ne env round n p st hnil
      rw [heq]
      dsimp only
      apply ih
      rw [hc1]
      exact List.mem_append.mpr (Or.inl hh)

theorem pullReports_nil (env : Env) (refs : List Reference)
    (hnil : (env 0 (refs.map (fun reference => (reference, 0)))).2 = []) :
    pullReports env refs =
      (processReports (env 0 (refs.map (fun reference => (reference, 0)))).1 emptyState,
       RunResult.success, [Ev.dispatch refs, Ev.partition, Ev.persist, Ev.recheck]) := by
  unfold pullReports
  dsimp only
  rw [if_pos (by simp [hnil])]

theorem pullReports_ne (env : Env) (refs : List Reference)
    (hne : (env 0 (refs.map (fun reference => (reference, 0)))).2 ≠ []) :
    pullReports env refs =
      ((retryLoopAux env 1 3 (env 0 (refs.map (fun reference => (reference, 0)))).2
          (processReports (env 0 (refs.map (fun reference => (reference, 0)))).1 emptyState)).1,
       (retryLoopAux env 1 3 (env 0 (refs.map (fun reference => (reference, 0)))).2
          (processReports (env 0 (refs.map (fun reference => (reference, 0)))).1 emptyState)).2.1,
       [Ev.dispatch refs, Ev.partition, Ev.persist, Ev.recheck] ++
         (retryLoopAux env 1 3 (env 0 (refs.map (fun reference => (reference, 0)))).2
            (processReports (env 0 (refs.map (fun reference => (reference, 0)))).1 emptyState)).2.2) := by
  unfold pullReports retryPendingReports
  dsimp only
  rw [if_neg (by simpa using hne)]

theorem string_data_append (a b : String) : (a ++ b).data = a.data ++ b.data := by
  cases a
  cases b
  rfl

theorem string_append_cancel_left {a b c : String} (h : a ++ b = a ++ c) : b = c := by
  have hd := congrArg String.data h
  rw [string_data_append, string_data_append] at hd
  have hbc := List.append_cancel_left hd
  cases b
  cases c
  exact congrArg String.mk hbc

theorem string_append_cancel_right {a b c : String} (h : a ++ c = b ++ c) : a = b := by
  have hd := congrArg String.data h
  rw [string_data_append, string_data_append] at hd
  have hab := List.append_cancel_right hd
  cases a
  cases b
  exact congrArg String.mk hab

theorem string_append_assoc (a b c : String) : a ++ b ++ c = a ++ (b ++ c) := by
  cases a
  cases b
  cases c
  show String.mk _ = String.mk _
  simp [string_data_append]

theorem key_fn_injective (b D : String) : Function.Injective (fun s => b ++ s ++ D) := by
  intro s t h
  exact string_append_cancel_left (string_append_cancel_right h)

theorem dictInsert_not_mem {k : String} {v : String × String} {d : List RefEntry}
    (hk : k ∉ d.map Prod.fst) : dictInsert k v d = d ++ [(k, v)] := by
  unfold dictInsert
  rw [if_neg]
  intro hany
  obtain ⟨kv, hkv, hbeq⟩ := List.any_eq_true.mp hany
  exact hk (List.mem_map.mpr ⟨kv, hkv, by simpa using hbeq⟩)

theorem foldl_dictInsert_keys {α : Type} (f : α → RefEntry) :
    ∀ (xs : List α) (d : List RefEntry),
    (d.map Prod.fst ++ xs.map (fun x => (f x).1)).Nodup →
    ((xs.foldl (fun acc x => dictInsert (f x).1 (f x).2 acc) d).map Prod.fst) =
      d.map Prod.fst ++ xs.map (fun x => (f x).1) := by
  intro xs
  induction xs with
  | nil => intro d _; simp
  | cons x t ih =>
    intro d hnd
    have hx : (f x).1 ∉ d.map Prod.fst := by
      rw [List.nodup_append] at hnd
      exact fun hmem => hnd.2.2 hmem (by simp)
    rw [List.foldl_cons, dictInsert_not_mem hx]
    have hnd' : ((d ++ [(f x)]).map Prod.fst ++ t.map (fun y => (f y).1)).Nodup := by
      simp only [List.map_append, List.map_cons, List.map_nil]
      rw [List.append_assoc]
      simpa using hnd
    rw [ih (d ++ [f x]) hnd']
    simp

theorem foldl_dictInsert_keys_entries :
    ∀ (xs d : List RefEntry),
    (d.map Prod.fst ++ xs.map Prod.fst).Nodup →
    ((xs.foldl (fun acc kv => dictInsert kv.1 kv.2 acc) d).map Prod.fst) =
      d.map Prod.fst ++ xs.map Prod.fst := by
  intro xs
  induction xs with
  | nil => intro d _; simp
  | cons x t ih =>
    intro d hnd
    have hx : x.1 ∉ d.map Prod.fst := by
      rw [List.nodup_append] at hnd
      exact fun hmem => hnd.2.2 hmem (by simp)
    rw [List.foldl_cons, dictInsert_not_mem hx]
    have hnd' : ((d ++ [x]).map Prod.fst ++ t.map Prod.fst).Nodup := by
      simp only [List.map_append, List.map_cons, List.map_nil]
      rw [List.append_assoc]
      simpa using hnd
    rw [ih (d ++ [x]) hnd']
    simp

theorem referencePaths_nodup :
    ((appsflyerReportsApi.map (fun api => referencePath applicationIdIos api)) ++
     (appsflyerReportsApi.map (fun api => referencePath applicationIdAndroid api))).Nodup :=
  List.Nodup.of_map String.length (by decide)

theorem referenceKeys_map (b : String) (ds dst : Nat) (applicationId : String) :
    appsflyerReportsApi.map (fun api => (createReferenceInfo b ds dst applicationId api).reference) =
      (appsflyerReportsApi.map (fun api => referencePath applicationId api)).map
        (fun s => b ++ s ++ referenceDates ds dst) := by
  rw [List.map_map]
  rfl

theorem referenceKeys_nodup (b : String) (ds dst : Nat) :
    ((appsflyerReportsApi.map
        (fun api => (createReferenceInfo b ds dst applicationIdIos api).reference)) ++
     (appsflyerReportsApi.map
        (fun api => (createReferenceInfo b ds dst applicationIdAndroid api).reference))).Nodup := by
  rw [referenceKeys_map, referenceKeys_map, ← List.map_append]
  exact List.Nodup.map (key_fn_injective b (referenceDates ds dst)) referencePaths_nodup

theorem createReferencesForApplication_keys (b : String) (ds dst : Nat) (applicationId : String)
    (hnd : (appsflyerReportsApi.map
      (fun api => (createReferenceInfo b ds dst applicationId api).reference)).Nodup) :
    (createReferencesForApplication b ds dst applicationId).map Prod.fst =
      appsflyerReportsApi.map (fun api => (createReferenceInfo b ds dst applicationId api).reference) := by
  have h0 := foldl_dictInsert_keys
    (fun reportApi =>
      ((createReferenceInfo b ds dst applicationId reportApi).reference,
       ((createReferenceInfo b ds dst applicationId reportApi).applicationId,
        (createReferenceInfo b ds dst applicationId reportApi).reportApi)))
    appsflyerReportsApi [] (by simpa using hnd)
  simpa using h0

theorem getAllReferences_keys (b : String) (now : Nat) :
    (getAllReferencesForAllApplications b now applicationIdIos applicationIdAndroid).map Prod.fst =
      (appsflyerReportsApi.map
        (fun api => (createReferenceInfo b (dateStart now) (dateStop now) applicationIdIos api).reference)) ++
      (appsflyerReportsApi.map
        (fun api => (createReferenceInfo b (dateStart now) (dateStop now) applicationIdAndroid api).reference)) := by
  have hnodup := referenceKeys_nodup b (dateStart now) (dateStop now)
  have hios := createReferencesForApplication_keys b (dateStart now) (dateStop now) applicationIdIos
    (List.nodup_append.mp hnodup).1
  have handroid := createReferencesForApplication_keys b (dateStart now) (dateStop now) applicationIdAndroid
    (List.nodup_append.mp hnodup).2.1
  have h0 := foldl_dictInsert_keys_entries
    (createReferencesForApplication b (dateStart now) (dateStop now) applicationIdAndroid)
    (createReferencesForApplication b (dateStart now) (dateStop now) applicationIdIos)
    (by rw [hios, handroid]; exact hnodup)
  rw [hios, handroid] at h0
  exact h0

theorem done_initial_not_redispatched (env : Env) (refs : List Reference)
    (He : EnvValid env) (hnd : refs.Nodup) (x : Handle)
    (hx : x ∈ (env 0 (refs.map (fun reference => (reference, 0)))).1.map Prod.fst) :
    ∀ ds ∈ (dispatchLists (pullReports env refs).2.2).tail, x.1 ∉ ds := by
  have hnames : ((refs.map (fun reference => (reference, 0))).map Prod.fst) = refs := by
    rw [List.map_map]
    exact List.map_id refs
  have hnd0 : ((refs.map (fun reference => (reference, 0))).map Prod.fst).Nodup := by
    rw [hnames]; exact hnd
  by_cases hnil : (env 0 (refs.map (fun reference => (reference, 0)))).2 = []
  · intro ds hds
    rw [pullReports_nil env refs hnil] at hds
    have : ds ∈ ([] : List (List Reference)) := by simpa [dispatchLists] using hds
    cases this
  · intro ds hds hxds
    rw [pullReports_ne env refs hnil] at hds
    dsimp only at hds
    rw [dispatchLists_initial_append] at hds
    have hsub := dispatchLists_subset env He 3 1
      (env 0 (refs.map (fun reference => (reference, 0)))).2
      (processReports (env 0 (refs.map (fun reference => (reference, 0)))).1 emptyState)
      ds (by simpa using hds) x.1 hxds
    exact done_name_not_in_pend He hnd0 hx hsub

/-! ## The claims -/

/-- **C8 (counterexample).** The claim that the retry rounds' wait budget is
strictly shorter than the initial round's wait budget is false on the code:
the retry budget is 5.0 seconds while the initial budget is 0.1 seconds, so
`retryWaitTimeout < initialWaitTimeout` fails. -/
theorem retry_wait_budget_not_shorter_cex : ¬ (retryWaitTimeout < initialWaitTimeout) := by
  norm_num [retryWaitTimeout, initialWaitTimeout]

/-- **C8 (amended).** The fixed wait budget used by every retry round's
partition step (5.0 s) is strictly *longer* than the wait budget used by the
initial dispatch round's partition step (0.1 s). -/
theorem initial_wait_budget_shorter_than_retry : initialWaitTimeout < retryWaitTimeout := by
  norm_num [retryWaitTimeout, initialWaitTimeout]

/-- **C5.** For every base URL, day of run, application identifier and report
kind, the built reference equals
`{base}/raw-data/export/app/{app_id}/{report_kind}/v5?from={Y-m-d}&to={Y-m-d}&additional_fields=match_type`
where the `from` date is one day before now and the `to` date two days before
now, both formatted `%Y-%m-%d`; and with the configured application
identifiers, the reference dict holds exactly one entry per
(application × report kind) pair: `2 × 4 = 8` entries. -/
theorem referenceBuilder_url_shape_and_count :
    (∀ (baseUrl : String) (now : Nat) (applicationId reportApi : String),
       (createReferenceInfo baseUrl (dateStart now) (dateStop now) applicationId reportApi).reference =
         baseUrl ++ "/raw-data/export/app/" ++ applicationId ++ "/" ++ reportApi ++ "/v5?from="
           ++ strftimeYMD (now - 1) ++ "&to=" ++ strftimeYMD (now - 2)
           ++ "&additional_fields=match_type") ∧
    (∀ (baseUrl : String) (now : Nat),
       (getAllReferencesForAllApplications baseUrl now applicationIdIos applicationIdAndroid).length
         = 8) := by
  constructor
  · intro baseUrl now applicationId reportApi
    have h2 : dateStop now = now - 2 := by
      simp [dateStop, dateStart, Nat.sub_sub]
    simp [createReferenceInfo, referencePath, referenceDates, additionalFields, dateStart, h2,
      string_append_assoc]
  · intro baseUrl now
    have hlen : (getAllReferencesForAllApplications baseUrl now applicationIdIos applicationIdAndroid).length =
        ((getAllReferencesForAllApplications baseUrl now applicationIdIos applicationIdAndroid).map Prod.fst).length :=
      (List.length_map _ _).symm
    rw [hlen, getAllReferences_keys]
    simp [appsflyerReportsApi]

/-- **C6.** For every `Success` outcome whose `Content-Disposition` value
derives the filename `x.csv` and whose body stream is any division of `B`
bytes into non-empty chunks of at most 1024 bytes, the persister produces the
file `./reports/unprocessed/x.csv` containing exactly those `B` bytes
(assuming the target file did not previously exist). -/
theorem reportPersister_streams_exact_bytes (h : Handle) (v : String)
    (chunks : List (List Nat)) (bytes : List Nat) (st : PState)
    (hv : v ≠ "") (hname : extractFilename v = "x.csv")
    (hchunks : ∀ c ∈ chunks, c ≠ [] ∧ c.length ≤ 1024)
    (hbytes : chunks.flatten = bytes)
    (hfresh : st.files "./reports/unprocessed/x.csv" = none) :
    (saveReport h ⟨some v, chunks⟩ st).files "./reports/unprocessed/x.csv" = some bytes := by
  have hpath : reportFilepath (extractFilename v) = "./reports/unprocessed/x.csv" := by
    rw [hname]; decide
  have hwc : writeChunks chunks = bytes := by
    rw [writeChunks_eq_join chunks (fun c hc => (hchunks c hc).1), hbytes]
  unfold saveReport
  dsimp only
  rw [if_neg hv]
  dsimp only
  rw [hpath, if_pos rfl, hfresh, hwc]
  rfl

/-- **C6 (witness).** A concrete body of three bytes split unevenly into two
chunks lands verbatim in `./reports/unprocessed/x.csv`. -/
theorem reportPersister_streams_exact_bytes_witness :
    (saveReport ("a", 0) ⟨some "attachment; filename=\"x.csv\"", [[1, 2], [3]]⟩
        emptyState).files "./reports/unprocessed/x.csv" = some [1, 2, 3] :=
  reportPersister_streams_exact_bytes ("a", 0) "attachment; filename=\"x.csv\""
    [[1, 2], [3]] [1, 2, 3] emptyState (by decide) (by decide)
    (by decide) (by decide) rfl

/-- **C7.** A `Success` outcome with no `Content-Disposition` header makes the
persister write no file and emit exactly one error log entry — the resulting
state is the input state with exactly that one log appended and nothing else
changed — and such a done outcome of the initial round is discarded without
being retried: its reference appears in no retry round's dispatch list. -/
theorem reportPersister_missing_header_error :
    (∀ (h : Handle) (reportResult : ReportResult) (st : PState),
       reportResult.contentDisposition = none →
       saveReport h reportResult st =
         { st with logs := st.logs ++
             [LogEntry.error "Content-Disposition header not found, cannot save CSV report"] }) ∧
    (∀ (env : Env) (refs : List Reference) (h : Handle) (reportResult : ReportResult),
       EnvValid env → refs.Nodup →
       (h, TaskOutcome.success reportResult) ∈
         (env 0 (refs.map (fun reference => (reference, 0)))).1 →
       reportResult.contentDisposition = none →
       ∀ ds ∈ (dispatchLists (pullReports env refs).2.2).tail, h.1 ∉ ds) := by
  constructor
  · intro h reportResult st hcd
    simp [saveReport, hcd]
  · intro env refs h reportResult He hnd hmem _
    exact done_initial_not_redispatched env refs He hnd h
      (List.mem_map.mpr ⟨(h, TaskOutcome.success reportResult), hmem, rfl⟩)

theorem envAllPend_valid : EnvValid envAllPend := by
  intro round tasks
  simp [envAllPend]

theorem envAllDone_valid : EnvValid envAllDone := by
  intro round tasks
  simp only [envAllDone, List.map_map, List.append_nil]
  have h1 : tasks.map (Prod.fst ∘ (fun task =>
      (task, TaskOutcome.success ⟨some "attachment; filename=\"x.csv\"", [[104, 105]]⟩))) = tasks :=
    List.map_id tasks
  rw [h1]

theorem envAFails_valid : EnvValid envAFails := by
  intro round tasks
  simp only [envAFails, List.map_map]
  have h1 : (tasks.filter (fun task => task.1 == "a")).map
      (Prod.fst ∘ (fun task => (task, TaskOutcome.failure))) =
        tasks.filter (fun task => task.1 == "a") :=
    List.map_id _
  rw [h1]
  exact List.filter_append_perm _ tasks

theorem envANoHeader_valid : EnvValid envANoHeader := by
  intro round tasks
  simp only [envANoHeader, List.map_map]
  have h1 : (tasks.filter (fun task => task.1 == "a")).map
      (Prod.fst ∘ (fun task => (task, TaskOutcome.success ⟨none, []⟩))) =
        tasks.filter (fun task => task.1 == "a") :=
    List.map_id _
  rw [h1]
  exact List.filter_append_perm _ tasks

theorem envAFailsRound1_valid : EnvValid envAFailsRound1 := by
  intro round tasks
  by_cases hr : round = 1
  · subst hr
    have hred : envAFailsRound1 1 tasks =
        ((tasks.filter (fun task => task.1 == "a")).map
           (fun task => (task, TaskOutcome.failure)),
         tasks.filter (fun task => !(task.1 == "a"))) := rfl
    rw [hred]
    simp only [List.map_map]
    have h1 : (tasks.filter (fun task => task.1 == "a")).map
        (Prod.fst ∘ (fun task => (task, TaskOutcome.failure))) =
          tasks.filter (fun task => task.1 == "a") :=
      List.map_id _
    rw [h1]
    exact List.filter_append_perm _ tasks
  · simp only [envAFailsRound1, if_neg hr, List.map_map, List.append_nil]
    have h1 : tasks.map (Prod.fst ∘ (fun task => (task, TaskOutcome.failure))) = tasks :=
      List.map_id tasks
    rw [h1]

/-- **C10.** When the `Content-Disposition` value is non-empty but does not
contain the substring `filename=`, the persister does not take the
missing-header branch: the derived filename is the whole value with
surrounding double quotes stripped (`value.split("filename=")[-1].strip('"')`
on a separator-free value) and the body is appended to
`./reports/unprocessed/` under that name; and the missing-header error branch
is taken (nothing is recorded as persisted) if and only if the header is
absent or its value is the empty string. -/
theorem filename_derivation_and_branch :
    (∀ (h : Handle) (reportResult : ReportResult) (st : PState) (v : String),
       reportResult.contentDisposition = some v → v ≠ "" →
       findSub filenameSep v.data = none →
       extractFilename v = String.mk (pyStrip '"' v.data) ∧
       (saveReport h reportResult st).files (reportFilepath (String.mk (pyStrip '"' v.data))) =
         some (((st.files (reportFilepath (String.mk (pyStrip '"' v.data)))).getD [])
           ++ writeChunks reportResult.chunks)) ∧
    (∀ (h : Handle) (reportResult : ReportResult) (st : PState),
       (saveReport h reportResult st).persisted = st.persisted ↔
         (reportResult.contentDisposition = none ∨ reportResult.contentDisposition = some "")) := by
  constructor
  · intro h reportResult st v hcd hv hfind
    have hext : extractFilename v = String.mk (pyStrip '"' v.data) := by
      simp [extractFilename, pySplit, pySplitAux, hfind]
    refine ⟨hext, ?_⟩
    unfold saveReport
    rw [hcd]
    dsimp only
    rw [if_neg hv]
    dsimp only
    rw [← hext]
    rw [if_pos rfl]
  · intro h reportResult st
    constructor
    · intro heq
      by_contra hcon
      push_neg at hcon
      obtain ⟨h1, h2⟩ := hcon
      cases hcd : reportResult.contentDisposition with
      | none => exact h1 hcd
      | some v =>
        have hv : v ≠ "" := by
          intro hv0
          exact h2 (by rw [hcd, hv0])
        have hw : writesReport reportResult = true := by
          unfold writesReport
          rw [hcd]
          simp [hv]
        rw [saveReport_persisted, hw] at heq
        simp at heq
    · intro hcase
      rcases hcase with hcd | hcd
      · rw [saveReport_persisted]
        have hw : writesReport reportResult = false := by unfold writesReport; rw [hcd]
        rw [hw]
        simp
      · rw [saveReport_persisted]
        have hw : writesReport reportResult = false := by unfold writesReport; rw [hcd]; simp
        rw [hw]
        simp

/-- **C10 (witness).** The header value `x.csv` (no `filename=` substring, no
quotes) names the written file directly, and an absent header leaves the
persisted set unchanged. -/
theorem filename_derivation_and_branch_witness :
    (extractFilename "x.csv" = String.mk (pyStrip '"' "x.csv".data) ∧
     (saveReport ("a", 0) ⟨some "x.csv", [[7]]⟩ emptyState).files
         (reportFilepath (String.mk (pyStrip '"' "x.csv".data))) =
       some (((emptyState.files (reportFilepath (String.mk (pyStrip '"' "x.csv".data)))).getD [])
         ++ writeChunks [[7]])) ∧
    (saveReport ("b", 0) ⟨none, []⟩ emptyState).persisted = emptyState.persisted :=
  ⟨filename_derivation_and_branch.1 ("a", 0) ⟨some "x.csv", [[7]]⟩ emptyState "x.csv"
      rfl (by decide) (by decide),
   (filename_derivation_and_branch.2 ("b", 0) ⟨none, []⟩ emptyState).mpr (Or.inl rfl)⟩

/-- **C7 (witness).** A headerless success leaves the filesystem untouched and
adds exactly one error log; its reference is absent from the (sole examined)
retry dispatch list of a run in which it completed in the initial round. -/
theorem reportPersister_missing_header_error_witness :
    (saveReport ("a", 0) ⟨none, []⟩ emptyState =
      { emptyState with
          logs := [LogEntry.error "Content-Disposition header not found, cannot save CSV report"] }) ∧
    "a" ∉ ((dispatchLists (pullReports envANoHeader ["a", "b"]).2.2).tail).getD 0 [] :=
  ⟨reportPersister_missing_header_error.1 ("a", 0) ⟨none, []⟩ emptyState rfl,
   reportPersister_missing_header_error.2 envANoHeader ["a", "b"] ("a", 0) ⟨none, []⟩
     envANoHeader_valid (by decide) (by decide) rfl
     (((dispatchLists (pullReports envANoHeader ["a", "b"]).2.2).tail).getD 0 []) (by decide)⟩

/-- **C1.** For every retry ceiling `K` and every pattern of per-round
completions, the retry coordinator executes at most `K` re-dispatch rounds;
omitting the ceiling uses the default of 3; and if the pending set is
non-empty after each of the first `K - 1` rounds and becomes empty in round
`K`, the loop exits normally with `RunResult.success` — no `TooManyRetries`
error is raised. -/
theorem retryCoordinator_bounded_rounds (env : Env) (K : Nat) (p : List Handle) (st : PState) :
    countDispatch (retryPendingReports env p st K).2.2 ≤ K ∧
    retryPendingReports env p st = retryPendingReports env p st 3 ∧
    ((∀ m, m + 1 < K → pendAfter env 1 p (m + 1) ≠ []) →
      pendAfter env 1 p K = [] → 0 < K →
      (retryPendingReports env p st K).2.1 = RunResult.success) := by
  refine ⟨countDispatch_le env K 1 p st, rfl, ?_⟩
  intro hne hemp hpos
  obtain ⟨n, rfl⟩ : ∃ n, K = n + 1 := ⟨K - 1, by omega⟩
  exact retryLoop_success_of_drain env n 1 (n + 1) p st (by omega)
    (fun m hm => hne m (by omega)) hemp

/-- **C1 (witness).** With a ceiling of 1 and an environment that resolves
everything in the first retry round, at most one round is dispatched and the
run succeeds. -/
theorem retryCoordinator_bounded_rounds_witness :
    countDispatch (retryPendingReports envAllDone [("a", 0)] emptyState 1).2.2 ≤ 1 ∧
    (retryPendingReports envAllDone [("a", 0)] emptyState 1).2.1 = RunResult.success :=
  ⟨(retryCoordinator_bounded_rounds envAllDone 1 [("a", 0)] emptyState).1,
   (retryCoordinator_bounded_rounds envAllDone 1 [("a", 0)] emptyState).2.2
     (fun m hm => absurd hm (by omega)) (by decide) (by decide)⟩

/-- **C2.** For every run whose pending set stays non-empty through all `K`
retry rounds (starting from a well-formed state: distinct references, and the
initial-round bookkeeping disjoint from the pending handles), the loop raises
`TooManyRetries`, every handle of the final pending set is cancelled exactly
once and never persisted, and no cancelled handle is persisted. -/
theorem retryCoordinator_exhaustion_cancels (env : Env) (K : Nat) (p : List Handle)
    (st : PState)
    (He : EnvValid env)
    (hnd : (p.map Prod.fst).Nodup)
    (hct : ∀ h ∈ st.cancelled, h.2 < 1)
    (hpt : ∀ h ∈ st.persisted, h.2 < 1)
    (hdc : ∀ h ∈ p, h ∉ st.cancelled)
    (hdp : ∀ h ∈ p, h ∉ st.persisted)
    (hcp : ∀ h ∈ st.cancelled, h ∉ st.persisted)
    (hpend : ∀ m, m < K → pendAfter env 1 p (m + 1) ≠ []) :
    (retryPendingReports env p st K).2.1 = RunResult.tooManyRetries ∧
    (∀ h ∈ pendAfter env 1 p K,
       countHandle h (retryPendingReports env p st K).1.cancelled = 1 ∧
       h ∉ (retryPendingReports env p st K).1.persisted) ∧
    (∀ h ∈ (retryPendingReports env p st K).1.cancelled,
       h ∉ (retryPendingReports env p st K).1.persisted) :=
  retry_exhaust_master env He K 1 p st hnd hct hpt hdc hdp hcp hpend

/-- **C2 (witness).** One reference that never resolves within a ceiling of 1
ends in `TooManyRetries` with its final handle cancelled exactly once. -/
theorem retryCoordinator_exhaustion_cancels_witness :
    (retryPendingReports envAllPend [("a", 0)] emptyState 1).2.1 = RunResult.tooManyRetries ∧
    countHandle ("a", 1) (retryPendingReports envAllPend [("a", 0)] emptyState 1).1.cancelled = 1 :=
  have H := retryCoordinator_exhaustion_cancels envAllPend 1 [("a", 0)] emptyState
    envAllPend_valid (by decide)
    (fun h hh => absurd hh (by simp [emptyState]))
    (fun h hh => absurd hh (by simp [emptyState]))
    (fun h _ hc => absurd hc (by simp [emptyState]))
    (fun h _ hc => absurd hc (by simp [emptyState]))
    (fun h hh => absurd hh (by simp [emptyState]))
    (fun m hm => by
      have h0 : m = 0 := by omega
      subst h0
      decide)
  ⟨H.1, (H.2.1 ("a", 1) (by decide)).1⟩

/-- **C3.** In the initial dispatch round, a request that resolves with a
`Failure` outcome has its handle cancelled, is excluded from the retry set,
and its reference appears in no retry round's dispatch list; while if
anything is still pending when the initial wait budget elapses, the first
retry round re-dispatches exactly the pending references — the same
`Reference` strings serve as identity. -/
theorem firstRound_failure_not_retried (env : Env) (refs : List Reference)
    (He : EnvValid env) (hnd : refs.Nodup) :
    (∀ h out, (h, out) ∈ (env 0 (refs.map (fun reference => (reference, 0)))).1 →
       out = TaskOutcome.failure →
       h ∈ (pullReports env refs).1.cancelled ∧
       h ∉ (env 0 (refs.map (fun reference => (reference, 0)))).2 ∧
       (∀ ds ∈ (dispatchLists (pullReports env refs).2.2).tail, h.1 ∉ ds)) ∧
    ((env 0 (refs.map (fun reference => (reference, 0)))).2 ≠ [] →
       (dispatchLists (pullReports env refs).2.2).getD 1 [] =
         (env 0 (refs.map (fun reference => (reference, 0)))).2.map Prod.fst) := by
  have hnames : ((refs.map (fun reference => (reference, 0))).map Prod.fst) = refs := by
    rw [List.map_map]
    exact List.map_id refs
  constructor
  · intro h out hmem hfail
    subst hfail
    have hx : h ∈ (env 0 (refs.map (fun reference => (reference, 0)))).1.map Prod.fst :=
      List.mem_map.mpr ⟨(h, TaskOutcome.failure), hmem, rfl⟩
    have hxc : h ∈ cancelledOf (env 0 (refs.map (fun reference => (reference, 0)))).1 :=
      List.mem_map.mpr ⟨(h, TaskOutcome.failure), List.mem_filter.mpr ⟨hmem, rfl⟩, rfl⟩
    refine ⟨?_, ?_, done_initial_not_redispatched env refs He hnd h hx⟩
    · by_cases hnil : (env 0 (refs.map (fun reference => (reference, 0)))).2 = []
      · rw [pullReports_nil env refs hnil]
        show h ∈ (processReports _ emptyState).cancelled
        rw [processReports_cancelled]
        exact List.mem_append.mpr (Or.inr hxc)
      · rw [pullReports_ne env refs hnil]
        dsimp only
        apply retryLoopAux_cancelled_mono
        rw [processReports_cancelled]
        exact List.mem_append.mpr (Or.inr hxc)
    · have hnd0 : (refs.map (fun reference => (reference, 0))).Nodup :=
        List.Nodup.of_map Prod.fst (by rw [hnames]; exact hnd)
      exact (env_append_nodup He hnd0).2.2 hx
  · intro hne
    rw [pullReports_ne env refs hne]
    dsimp only
    rw [dispatchLists_initial_append, show (3 : Nat) = 2 + 1 from rfl]
    by_cases hnil1 : (env 1 (createTasksForRetryRequest
        (env 0 (refs.map (fun reference => (reference, 0)))).2 1)).2 = []
    · obtain ⟨_, _, _, htr⟩ := retryLoopAux_succ_nil env 1 2
        (env 0 (refs.map (fun reference => (reference, 0)))).2
        (processReports (env 0 (refs.map (fun reference => (reference, 0)))).1 emptyState) hnil1
      rw [htr, dispatchLists_roundBlock, createTasks_map_fst]
      rfl
    · obtain ⟨st1, _, _, heq⟩ := retryLoopAux_succ_ne env 1 2
        (env 0 (refs.map (fun reference => (reference, 0)))).2
        (processReports (env 0 (refs.map (fun reference => (reference, 0)))).1 emptyState) hnil1
      rw [heq]
      dsimp only
      rw [dispatchLists_roundBlock_append, createTasks_map_fst]
      rfl

/-- **C3 (witness).** Reference `a` fails in the initial round: its handle is
cancelled and round 1 re-dispatches exactly the pending `b`. -/
theorem firstRound_failure_not_retried_witness :
    ("a", 0) ∈ (pullReports envAFails ["a", "b"]).1.cancelled ∧
    (dispatchLists (pullReports envAFails ["a", "b"]).2.2).getD 1 [] = ["b"] :=
  have H := firstRound_failure_not_retried envAFails ["a", "b"] envAFails_valid (by decide)
  ⟨(H.1 ("a", 0) TaskOutcome.failure (by decide) rfl).1, H.2 (by decide)⟩

/-- **C4 (counterexample).** Reference `a` resolves with a `Failure` outcome
in retry round 1 while `b` stays pending; round 2 re-dispatches only `b`: the
failed reference is *not* carried into the next round's re-dispatch set, so
retry-round failures are not treated like still-pending references. -/
theorem retryRound_failure_carried_cex :
    ((("a", 1), TaskOutcome.failure) ∈
       (envAFailsRound1 1 (createTasksForRetryRequest [("a", 0), ("b", 0)] 1)).1) ∧
    dispatchLists (retryPendingReports envAFailsRound1 [("a", 0), ("b", 0)] emptyState).2.2 =
      [["a", "b"], ["b"]] ∧
    "a" ∉ (dispatchLists
      (retryPendingReports envAFailsRound1 [("a", 0), ("b", 0)] emptyState).2.2).getD 1 [] :=
  ⟨by decide, by decide, by decide⟩

/-- **C4 (amended).** A reference whose request resolves with a `Failure`
outcome during a retry round is treated like a first-round failure, not like
a timed-out one: its handle is cancelled, it is excluded from the round's
pending set, and its reference appears in no later round's dispatch list. -/
theorem retryRound_failure_cancelled_not_carried (env : Env) (round rem : Nat)
    (p : List Handle) (st : PState) (h : Handle) (out : TaskOutcome)
    (He : EnvValid env) (hnd : (p.map Prod.fst).Nodup)
    (hmem : (h, out) ∈ (env round (createTasksForRetryRequest p round)).1)
    (hfail : out = TaskOutcome.failure) :
    h ∈ (retryLoopAux env round (rem + 1) p st).1.cancelled ∧
    h ∉ (env round (createTasksForRetryRequest p round)).2 ∧
    (∀ ds ∈ (dispatchLists (retryLoopAux env round (rem + 1) p st).2.2).tail, h.1 ∉ ds) := by
  subst hfail
  have hx : h ∈ (env round (createTasksForRetryRequest p round)).1.map Prod.fst :=
    List.mem_map.mpr ⟨(h, TaskOutcome.failure), hmem, rfl⟩
  have hxc : h ∈ cancelledOf (env round (createTasksForRetryRequest p round)).1 :=
    List.mem_map.mpr ⟨(h, TaskOutcome.failure), List.mem_filter.mpr ⟨hmem, rfl⟩, rfl⟩
  have htsnd : ((createTasksForRetryRequest p round).map Prod.fst).Nodup := by
    rw [createTasks_map_fst]; exact hnd
  refine ⟨?_, (env_append_nodup He htsnd.of_map).2.2 hx, ?_⟩
  · by_cases hnil : (env round (createTasksForRetryRequest p round)).2 = []
    · obtain ⟨_, hc, _, _⟩ := retryLoopAux_succ_nil env round rem p st hnil
      rw [hc]
      exact List.mem_append.mpr (Or.inr hxc)
    · obtain ⟨st1, hc1, _, heq⟩ := retryLoopAux_succ_ne env round rem p st hnil
      rw [heq]
      dsimp only
      apply retryLoopAux_cancelled_mono
      rw [hc1]
      exact List.mem_append.mpr (Or.inr hxc)
  · by_cases hnil : (env round (createTasksForRetryRequest p round)).2 = []
    · intro ds hds
      obtain ⟨_, _, _, htr⟩ := retryLoopAux_succ_nil env round rem p st hnil
      rw [htr, dispatchLists_roundBlock] at hds
      simp at hds
    · intro ds hds hxds
      obtain ⟨st1, _, _, heq⟩ := retryLoopAux_succ_ne env round rem p st hnil
      rw [heq] at hds
      dsimp only at hds
      rw [dispatchLists_roundBlock_append] at hds
      have hsub := dispatchLists_subset env He rem (round + 1)
        (env round (createTasksForRetryRequest p round)).2 st1 ds (by simpa using hds) h.1 hxds
      exact done_name_not_in_pend He htsnd hx hsub

/-- **C4 (amended, witness).** In the concrete round-1 failure run the failed
handle is cancelled and its reference is absent from the next dispatch. -/
theorem retryRound_failure_cancelled_not_carried_witness :
    ("a", 1) ∈
      (retryLoopAux envAFailsRound1 1 3 [("a", 0), ("b", 0)] emptyState).1.cancelled ∧
    "a" ∉ ((dispatchLists
      (retryLoopAux envAFailsRound1 1 3 [("a", 0), ("b", 0)] emptyState).2.2).tail).getD 0 [] :=
  have H := retryRound_failure_cancelled_not_carried envAFailsRound1 1 2 [("a", 0), ("b", 0)]
    emptyState ("a", 1) TaskOutcome.failure envAFailsRound1_valid (by decide) (by decide) rfl
  ⟨H.1,
   H.2.2 (((dispatchLists
     (retryLoopAux envAFailsRound1 1 3 [("a", 0), ("b", 0)] emptyState).2.2).tail).getD 0 [])
     (by decide)⟩

/-- **C9 (counterexample).** The claimed step order of a retry round —
re-dispatch, partition, persist, sleep, re-check — does not match the code:
in a concrete one-round run the trace is
[dispatch, partition, sleep, persist, recheck]; the sleep strictly precedes
the persistence step. -/
theorem retryRound_persist_before_sleep_cex :
    (retryPendingReports envAllDone [("a", 0)] emptyState 1).2.2 =
      [Ev.dispatch ["a"], Ev.partition, Ev.sleep, Ev.persist, Ev.recheck] ∧
    (retryPendingReports envAllDone [("a", 0)] emptyState 1).2.2 ≠
      [Ev.dispatch ["a"], Ev.partition, Ev.persist, Ev.sleep, Ev.recheck] ∧
    (retryPendingReports envAllDone [("a", 0)] emptyState 1).2.2.indexOf Ev.sleep <
      (retryPendingReports envAllDone [("a", 0)] emptyState 1).2.2.indexOf Ev.persist :=
  ⟨by decide, by decide, by decide⟩

/-- **C9 (amended).** Every retry round's trace is the block
[re-dispatch, partition, sleep, persist, re-check] (`roundBlock`): the fixed
inter-round sleep occurs *before* the persistence of that round's newly
completed outcomes, and a full run of the loop is a concatenation of such
blocks, possibly followed by the exhaustion cancellation event. -/
theorem retryRound_step_order (env : Env) :
    ∀ (rem round : Nat) (p : List Handle) (st : PState),
    ∃ (blocks : List (List Reference)) (tail : List Ev),
      (retryLoopAux env round rem p st).2.2 = (blocks.map roundBlock).flatten ++ tail ∧
      (tail = [] ∨ tail = [Ev.cancelPending]) := by
  intro rem
  induction rem with
  | zero =>
    intro round p st
    exact ⟨[], [Ev.cancelPending], by rw [retryLoopAux_zero]; rfl, Or.inr rfl⟩
  | succ n ih =>
    intro round p st
    by_cases hnil : (env round (createTasksForRetryRequest p round)).2 = []
    · obtain ⟨_, _, _, htr⟩ := retryLoopAux_succ_nil env round n p st hnil
      refine ⟨[(createTasksForRetryRequest p round).map Prod.fst], [], ?_, Or.inl rfl⟩
      rw [htr]
      simp
    · obtain ⟨st1, _, _, heq⟩ := retryLoopAux_succ_ne env round n p st hnil
      obtain ⟨bs, tl, htr, hcase⟩ := ih (round + 1)
        (env round (createTasksForRetryRequest p round)).2 st1
      refine ⟨(createTasksForRetryRequest p round).map Prod.fst :: bs, tl, ?_, hcase⟩
      rw [heq]
      dsimp only
      rw [htr]
      simp [List.append_assoc]
